import Mathlib

/-!
Shallow embedding of the user-space file-system service of this repository
(src/fs/fs.c, src/user/fork.c, src/include/fs.h) and proofs about it.

Modelling conventions:
* Machine integers are `Nat` (all the quantities involved are non-negative
  block numbers, sizes and indices; no arithmetic here overflows 32 bits for
  the states considered).  C `int` return codes are `Int` (0 = success,
  negative = error).
* The mutable globals of fs.c (`super`, `bitmap`, the page table of the
  DISKMAP window, the cache contents and the disk) are gathered into an
  explicit state `FsState` that every operation takes and returns.
* The allocation bitmap is modelled as a flat bit vector `bitmap : Nat → Bool`
  (bit n = `bitmap[n / 32] >> (n % 32) & 1` of the C word array, `true` = bit
  set = free); the 32-bit word striping only redistributes the bits inside
  the same bitmap block and is transparent to every operation modelled here.
* Cache memory is modelled per block with two typed views, exactly the two
  ways fs.c reads block payloads: `mem b i` is the i-th `u_int` of block `b`
  (used for indirect blocks) and `recs b j` is the j-th `struct File` record
  of block `b` (used for directory blocks).  The disk has the matching views
  `disk` and `diskRecs`; `ide_read`/`ide_write` copy a whole block between
  the two.  A consistent file system never reads the same block through both
  views.
* `user_panic`, `user_assert` failures and undefined behaviour (dereference
  of a NULL slot pointer) are modelled by returning `none`; fallible calls
  return `Option` of (code, outputs, state).
* `syscall_mem_alloc` (kernel, not part of src/) is modelled from the spec:
  it backs the virtual page with a fresh physical page, i.e. a zero-filled
  page, and may fail; the oracle `memAllocFails` of the state says at which
  blocks it fails (returning the kernel code `-E_NO_MEM`).
-/

/-! Constants from src/include/fs.h (BY2PG = 4096 on the MIPS platform). -/

def BY2BLK : Nat := 4096
def BIT2BLK : Nat := BY2BLK * 8
def MAXNAMELEN : Nat := 128
def NDIRECT : Nat := 10
def NINDIRECT : Nat := BY2BLK / 4
def MAXFILESIZE : Nat := NINDIRECT * BY2BLK
def FILE2BLK : Nat := BY2BLK / 256
def FTYPE_REG : Nat := 0
def FTYPE_DIR : Nat := 1

/-! Error codes from include/error.h (the header itself is outside src/; the
    numeric values are the standard MOS ones and only their distinctness
    matters). -/

def E_NO_MEM : Int := 4
def E_NO_DISK : Int := 7
def E_MAX_OPEN : Int := 8
def E_NOT_FOUND : Int := 9
def E_BAD_PATH : Int := 10
def E_FILE_EXISTS : Int := 11
def E_INVAL : Int := 3

/-- Location of a `struct File` record in the server's memory: either the
root record embedded in the superblock (`&super->s_root`), or the j-th
record of cache block b (a record of a directory data block). -/
inductive FLoc where
  | root : FLoc
  | blk (b : Nat) (j : Nat) : FLoc
deriving DecidableEq, Repr

/-- The on-disk/in-cache file record `struct File` of include/fs.h.
`fname` holds the characters before the terminating NUL ([] = free slot),
`fdirect` the ten direct block-number slots, `fdir` the memory-only parent
pointer `f_dir` (modelled as a record location, `none` = NULL). -/
structure File where
  fname : List Char
  fsize : Nat
  ftype : Nat
  fdirect : List Nat
  findirect : Nat
  fdir : Option FLoc
deriving DecidableEq, Repr

/-- Default file record (all zero). -/
def File.dflt : File :=
  { fname := [], fsize := 0, ftype := 0
    fdirect := [0, 0, 0, 0, 0, 0, 0, 0, 0, 0], findirect := 0, fdir := none }

instance : Inhabited File := ⟨File.dflt⟩

/-- State of the file-system server process: the globals of fs.c plus the
kernel-held page table of the DISKMAP window, the cache pages and the disk.
`superLoaded`/`bitmapLoaded` model the null-ness of the globals `super` and
`bitmap`; `nblocks` is `super->s_nblocks`; `mapped b` says whether the page
of block b is mapped (`block_is_mapped`); `writes` is the trace of disk
writes issued through `write_block`, in order. -/
structure FsState where
  superLoaded : Bool
  bitmapLoaded : Bool
  nblocks : Nat
  bitmap : Nat → Bool
  mapped : Nat → Bool
  mem : Nat → Nat → Nat
  recs : Nat → Nat → File
  disk : Nat → Nat → Nat
  diskRecs : Nat → Nat → File
  rootRec : File
  memAllocFails : Nat → Bool
  writes : List Nat

/-- Default state (everything empty). -/
def FsState.dflt : FsState :=
  { superLoaded := false, bitmapLoaded := false, nblocks := 0
    bitmap := fun _ => false, mapped := fun _ => false
    mem := fun _ _ => 0, recs := fun _ _ => File.dflt
    disk := fun _ _ => 0, diskRecs := fun _ _ => File.dflt
    rootRec := File.dflt, memAllocFails := fun _ => false, writes := [] }

instance : Inhabited FsState := ⟨FsState.dflt⟩

/-- Read the record a location points at. -/
def getFile (st : FsState) : FLoc → File
  | .root => st.rootRec
  | .blk b j => st.recs b j

/-- Write the record a location points at. -/
def setFile (st : FsState) : FLoc → File → FsState
  | .root, f => { st with rootRec := f }
  | .blk b j, f =>
    { st with recs := fun b2 j2 => if b2 = b ∧ j2 = j then f else st.recs b2 j2 }

/-! Block cache and bitmap (fs.c lines 19-320). -/

/-- Check to see if the block bitmap indicates that block `blockno` is free
(fs.c `block_is_free`): when the super block is not loaded or the block
number is out of range, return 0; otherwise test bit `blockno` of the
bitmap. -/
def block_is_free (st : FsState) (blockno : Nat) : Bool :=
  if st.superLoaded = false ∨ st.nblocks ≤ blockno then false
  else st.bitmap blockno

/-- Mark a block free in the bitmap (fs.c `free_block`): panics (`none`)
when `blockno = 0`, otherwise sets bit `blockno`. -/
def free_block (st : FsState) (blockno : Nat) : Option FsState :=
  if blockno = 0 then none
  else some { st with
    bitmap := fun n => if n = blockno then true else st.bitmap n }

/-- Flush a block of the cache to disk (fs.c `write_block`): panics when the
block is not mapped; otherwise `ide_write`s the cache page content to disk (both
typed views) and remaps the page (which does not change any state modelled
here beyond recording the write in the trace). -/
def write_block (st : FsState) (blockno : Nat) : Option FsState :=
  if st.mapped blockno = false then none
  else some { st with
    disk := fun b i => if b = blockno then st.mem b i else st.disk b i
    diskRecs := fun b j => if b = blockno then st.recs b j else st.diskRecs b j
    writes := st.writes ++ [blockno] }

/-- Allocate a page for a block (fs.c `map_block`): if the block is already
mapped do nothing, otherwise `syscall_mem_alloc` a fresh (zero-filled) page
at its disk address, which may fail with `-E_NO_MEM`. -/
def map_block (st : FsState) (blockno : Nat) : Int × FsState :=
  if st.mapped blockno then (0, st)
  else if st.memAllocFails blockno then (-E_NO_MEM, st)
  else (0, { st with
    mapped := fun b => if b = blockno then true else st.mapped b
    mem := fun b i => if b = blockno then 0 else st.mem b i
    recs := fun b j => if b = blockno then File.dflt else st.recs b j })

/-- Make sure a disk block is loaded into memory (fs.c `read_block`): panics
when the super block is loaded and the block is out of range, or when the
bitmap is loaded and the block is free; if the block is already mapped
nothing happens (isnew = false), otherwise a page is allocated (failure of
`syscall_mem_alloc` is not checked by the C code, so `ide_read` then faults:
modelled as a panic) and the block is read off disk (isnew = true). -/
def read_block (st : FsState) (blockno : Nat) : Option (FsState × Bool) :=
  if st.superLoaded ∧ st.nblocks ≤ blockno then none
  else if st.bitmapLoaded ∧ block_is_free st blockno then none
  else if st.mapped blockno then some (st, false)
  else if st.memAllocFails blockno then none
  else some ({ st with
    mapped := fun b => if b = blockno then true else st.mapped b
    mem := fun b i => if b = blockno then st.disk b i else st.mem b i
    recs := fun b j => if b = blockno then st.diskRecs b j else st.recs b j },
    true)

/-- Scan loop of fs.c `alloc_block_num`: the first block number in
`[b, b + n)` whose bitmap bit is set, if any (the second argument is the
number of loop iterations left, `stop - b` for the C loop bound `stop`). -/
def alloc_scan (bm : Nat → Bool) (b : Nat) : Nat → Option Nat
  | 0 => none
  | n + 1 => if bm b then some b else alloc_scan bm (b + 1) n

/-- Search the bitmap for a free block and allocate it (fs.c
`alloc_block_num`): scan block numbers from 3 upward; at the first set bit,
clear it and `write_block(blockno / BIT2BLK)` (note: *not* the bitmap block
`2 + blockno / BIT2BLK`), returning the block number; return `-E_NO_DISK`
when no bit in `[3, s_nblocks)` is set. -/
def alloc_block_num (st : FsState) : Option (Int × FsState) :=
  match alloc_scan st.bitmap 3 (st.nblocks - 3) with
  | some blockno =>
    let st1 : FsState := { st with
      bitmap := fun n => if n = blockno then false else st.bitmap n }
    match write_block st1 (blockno / BIT2BLK) with
    | none => none
    | some st2 => some ((blockno : Int), st2)
  | none => some (-E_NO_DISK, st)

/-- Allocate a block and map a page for it (fs.c `alloc_block`): on
allocation of block bno, if mapping its page fails the block is freed again
and the error returned. -/
def alloc_block (st : FsState) : Option (Int × FsState) :=
  match alloc_block_num st with
  | none => none
  | some (r, st1) =>
    if r < 0 then some (r, st1)
    else
      let bno := r.toNat
      let m := map_block st1 bno
      if m.1 < 0 then
        match free_block m.2 bno with
        | none => none
        | some st3 => some (m.1, st3)
      else some ((bno : Int), m.2)

/-- Check whether a page in memory is dirty (fs.c `va_is_dirty`): the
platform has no PTE_D bit, the function returns 0 unconditionally. -/
def va_is_dirty (_va : Nat) : Bool := false

/-- Check whether a block in memory is dirty (fs.c `block_is_dirty`):
mapped and dirty. -/
def block_is_dirty (st : FsState) (blockno : Nat) : Bool :=
  st.mapped blockno && va_is_dirty blockno

/-- Synchronize the entire file system (fs.c `fs_sync`): for every block
number below `s_nblocks`, write it back if it is dirty. -/
def fs_sync (st : FsState) : FsState :=
  (List.range st.nblocks).foldl
    (fun s i => if block_is_dirty s i then (write_block s i).getD s else s) st

/-! File layer (fs.c lines 433-606). -/

/-- A slot pointer as produced by `file_block_walk` (`u_int *ppdiskbno`):
either the address of `f->f_direct[i]`, or the address of the i-th `u_int`
entry of the (resident) indirect block b. -/
inductive Slot where
  | direct (i : Nat) : Slot
  | ind (b : Nat) (i : Nat) : Slot
deriving DecidableEq, Repr

instance : Inhabited Slot := ⟨.direct 0⟩

/-- Dereference a slot pointer. -/
def readSlot (st : FsState) (f : File) : Slot → Nat
  | .direct i => f.fdirect.getD i 0
  | .ind b i => st.mem b i

/-- Store through a slot pointer. -/
def writeSlot (st : FsState) (f : File) (s : Slot) (v : Nat) : File × FsState :=
  match s with
  | .direct i => ({ f with fdirect := f.fdirect.set i v }, st)
  | .ind b i =>
    (f, { st with
      mem := fun b2 i2 => if b2 = b ∧ i2 = i then v else st.mem b2 i2 })

/-- Find the disk-block-number slot for the filebno-th block of file f
(fs.c `file_block_walk`): direct slot when `filebno < NDIRECT`; entry
`filebno` of the indirect block when `filebno < NINDIRECT` (allocating the
indirect block first when absent and `alloc` is set, `-E_NOT_FOUND` when
absent and `alloc` is clear); `-E_INVAL` beyond.  On an error return the
slot output is garbage (the C code leaves `*ppdiskbno` unwritten). -/
def file_block_walk (st : FsState) (f : File) (filebno : Nat) (alloc : Bool) :
    Option (Int × Slot × File × FsState) :=
  if filebno < NDIRECT then some (0, .direct filebno, f, st)
  else if filebno < NINDIRECT then
    if f.findirect = 0 then
      if alloc = false then some (-E_NOT_FOUND, default, f, st)
      else
        match alloc_block st with
        | none => none
        | some (r, st1) =>
          if r < 0 then some (r, default, f, st1)
          else
            let f1 := { f with findirect := r.toNat }
            match read_block st1 f1.findirect with
            | none => none
            | some (st2, _) => some (0, .ind f1.findirect filebno, f1, st2)
    else
      match read_block st f.findirect with
      | none => none
      | some (st2, _) => some (0, .ind f.findirect filebno, f, st2)
  else some (-E_INVAL, default, f, st)

/-- Map a physical block to the filebno-th block of file f (fs.c
`file_map_block`): walk to the slot; when the slot holds 0, either fail with
`-E_NOT_FOUND` (`alloc` clear) or allocate a block and store its number in
the slot; output the slot's block number (0 is the garbage output value on
error returns). -/
def file_map_block (st : FsState) (f : File) (filebno : Nat) (alloc : Bool) :
    Option (Int × Nat × File × FsState) :=
  match file_block_walk st f filebno alloc with
  | none => none
  | some (r, slot, f1, st1) =>
    if r < 0 then some (r, 0, f1, st1)
    else if readSlot st1 f1 slot = 0 then
      if alloc = false then some (-E_NOT_FOUND, 0, f1, st1)
      else
        match alloc_block st1 with
        | none => none
        | some (r2, st2) =>
          if r2 < 0 then some (r2, 0, f1, st2)
          else
            let p := writeSlot st2 f1 slot r2.toNat
            some (0, r2.toNat, p.1, p.2)
    else some (0, readSlot st1 f1 slot, f1, st1)

/-- Remove the filebno-th block from file f (fs.c `file_clear_block`): walk
without alloc; errors other than `-E_NOT_FOUND` are returned; on
`-E_NOT_FOUND` the local `ptr` is still NULL and the unconditional `*ptr`
test dereferences a NULL pointer (modelled as a crash, `none`); when the
slot holds a non-zero block number, free it in the bitmap and zero the
slot. -/
def file_clear_block (st : FsState) (f : File) (filebno : Nat) :
    Option (Int × File × FsState) :=
  match file_block_walk st f filebno false with
  | none => none
  | some (r, slot, f1, st1) =>
    if r < 0 ∧ r ≠ -E_NOT_FOUND then some (r, f1, st1)
    else if r < 0 then none
    else
      let v := readSlot st1 f1 slot
      if v ≠ 0 then
        match free_block st1 v with
        | none => none
        | some st2 =>
          let p := writeSlot st2 f1 slot 0
          some (0, p.1, p.2)
      else some (0, f1, st1)

/-- Make sure the filebno-th block of file f is resident (fs.c
`file_get_block`): map with alloc, then `read_block`; outputs the disk block
number whose page holds the data (`*blk` is its fixed virtual address). -/
def file_get_block (st : FsState) (f : File) (filebno : Nat) :
    Option (Int × Nat × File × FsState) :=
  match file_map_block st f filebno true with
  | none => none
  | some (r, diskbno, f1, st1) =>
    if r < 0 then some (r, 0, f1, st1)
    else
      match read_block st1 diskbno with
      | none => none
      | some (st2, _) => some (0, diskbno, f1, st2)

/-- Clear loop of fs.c `file_truncate`: `file_clear_block` on every logical
block index in `[bno, bno + n)` (n = remaining loop iterations), ignoring
error returns (the C code discards the result), propagating crashes. -/
def trunc_loop (st : FsState) (f : File) (bno : Nat) :
    Nat → Option (File × FsState)
  | 0 => some (f, st)
  | n + 1 =>
    match file_clear_block st f bno with
    | none => none
    | some (_, f1, st1) => trunc_loop st1 f1 (bno + 1) n

/-- Truncate file f down to newsize bytes (fs.c `file_truncate`): clear the
logical blocks in `[new_nblocks, old_nblocks)` (block counts
`⌈size/BY2BLK⌉`), then, whenever an indirect block exists, free it and zero
`f_indirect`; finally set `f_size` to newsize. -/
def file_truncate (st : FsState) (f : File) (newsize : Nat) :
    Option (File × FsState) :=
  let old_nblocks := (f.fsize + BY2BLK - 1) / BY2BLK
  let new_nblocks := if newsize = 0 then 0 else (newsize + BY2BLK - 1) / BY2BLK
  match trunc_loop st f new_nblocks (old_nblocks - new_nblocks) with
  | none => none
  | some (f1, st1) =>
    if f1.findirect ≠ 0 then
      match free_block st1 f1.findirect with
      | none => none
      | some st2 => some ({ f1 with findirect := 0, fsize := newsize }, st2)
    else some ({ f1 with fsize := newsize }, st1)

/-- Flush loop of fs.c `file_flush`: for each logical block in
`[bno, bno + n)` (n = remaining loop iterations), map without alloc (an
error return ends the void function early) and `write_block` the backing
block if it is dirty. -/
def flush_loop (st : FsState) (f : File) (bno : Nat) :
    Nat → Option (File × FsState)
  | 0 => some (f, st)
  | n + 1 =>
    match file_map_block st f bno false with
    | none => none
    | some (r, diskno, f1, st1) =>
      if r < 0 then some (f1, st1)
      else if block_is_dirty st1 diskno then
        match write_block st1 diskno with
        | none => none
        | some st2 => flush_loop st2 f1 (bno + 1) n
      else flush_loop st1 f1 (bno + 1) n

/-- Flush the contents of file f out to disk (fs.c `file_flush`): write back
every dirty backing block of the `⌈f_size/BY2BLK⌉` logical blocks. -/
def file_flush (st : FsState) (f : File) : Option (File × FsState) :=
  flush_loop st f 0 ((f.fsize + BY2BLK - 1) / BY2BLK)

/-! Directory operations and the path walk (fs.c lines 608-844). -/

/-- Inner scan of fs.c `dir_lookup`: the first record index j < FILE2BLK of
block b whose name equals `name` (`strcmp(f[j].f_name, name) == 0`). -/
def scan_name (st : FsState) (b : Nat) (name : List Char) : Option Nat :=
  (List.range FILE2BLK).find? (fun j => (st.recs b j).fname == name)

/-- Inner scan of fs.c `dir_alloc_file`: the first record index j < FILE2BLK
of block b whose name starts with NUL (`f[j].f_name[0] == '\0'`). -/
def scan_free (st : FsState) (b : Nat) : Option Nat :=
  (List.range FILE2BLK).find? (fun j => (st.recs b j).fname == [])

/-- Block loop of fs.c `dir_lookup`, scanning directory blocks
`[i, i + n)` (n = remaining loop iterations).  The directory record is
handled through its location `dirLoc` because `file_get_block` may write
back into it (allocating slots); writes through the C pointer are modelled
by writing the updated record back after each call. -/
def dir_lookup_loop (st : FsState) (dirLoc : FLoc) (name : List Char)
    (i : Nat) : Nat → Option (Int × Option FLoc × FsState)
  | 0 => some (-E_NOT_FOUND, none, st)
  | n + 1 =>
    match file_get_block st (getFile st dirLoc) i with
    | none => none
    | some (r, b, dir1, st1) =>
      let st2 := setFile st1 dirLoc dir1
      if r < 0 then some (r, none, st2)
      else
        match scan_name st2 b name with
        | some j =>
          let frec := st2.recs b j
          let st3 := setFile st2 (.blk b j) { frec with fdir := some dirLoc }
          some (0, some (.blk b j), st3)
        | none => dir_lookup_loop st2 dirLoc name (i + 1) n

/-- Try to find a file named `name` in the directory at `dirLoc` (fs.c
`dir_lookup`): linear scan of all `⌈f_size/BY2BLK⌉` directory blocks; on a
hit, set the found record's `f_dir` to the directory and return its
location; `-E_NOT_FOUND` after scanning every block. -/
def dir_lookup (st : FsState) (dirLoc : FLoc) (name : List Char) :
    Option (Int × Option FLoc × FsState) :=
  dir_lookup_loop st dirLoc name 0 (((getFile st dirLoc).fsize + BY2BLK - 1) / BY2BLK)

/-- Block loop and growth step of fs.c `dir_alloc_file`, scanning directory
blocks `[i, i + n)` (n = remaining loop iterations): scan the existing
blocks for a record with empty name; when none is free (the loop exits with
`i = nblock`), grow the directory by one block (`f_size += BY2BLK`), fault
block i in and return its first record. -/
def dir_alloc_loop (st : FsState) (dirLoc : FLoc) (i : Nat) :
    Nat → Option (Int × Option FLoc × FsState)
  | 0 =>
    let dir := getFile st dirLoc
    let st1 := setFile st dirLoc { dir with fsize := dir.fsize + BY2BLK }
    match file_get_block st1 (getFile st1 dirLoc) i with
    | none => none
    | some (r, b, dir1, st2) =>
      let st3 := setFile st2 dirLoc dir1
      if r < 0 then some (r, none, st3)
      else some (0, some (.blk b 0), st3)
  | n + 1 =>
    match file_get_block st (getFile st dirLoc) i with
    | none => none
    | some (r, b, dir1, st1) =>
      let st2 := setFile st1 dirLoc dir1
      if r < 0 then some (r, none, st2)
      else
        match scan_free st2 b with
        | some j => some (0, some (.blk b j), st2)
        | none => dir_alloc_loop st2 dirLoc (i + 1) n

/-- Find a free record slot in the directory at `dirLoc` (fs.c
`dir_alloc_file`). -/
def dir_alloc_file (st : FsState) (dirLoc : FLoc) :
    Option (Int × Option FLoc × FsState) :=
  dir_alloc_loop st dirLoc 0 (((getFile st dirLoc).fsize + BY2BLK - 1) / BY2BLK)

/-- Skip over slashes (fs.c `skip_slash`). -/
def skip_slash : List Char → List Char
  | [] => []
  | c :: cs => if c = '/' then skip_slash cs else c :: cs

/-- Component extraction of fs.c `walk_path`: the inner
`while (*path != '/' && *path != '\0') path++` splits the path into the
leading component and the rest. -/
def takeComp : List Char → List Char × List Char
  | [] => ([], [])
  | c :: cs =>
    if c = '/' then ([], c :: cs)
    else
      let p := takeComp cs
      (c :: p.1, p.2)

/-- Result of fs.c `walk_path`: the return code and the three output
parameters `*pdir`, `*pfile` and the `lastelem` buffer (which keeps its
initial contents, modelled `[]`, unless the walk misses at the final
component). -/
structure WalkOut where
  code : Int
  pdir : Option FLoc
  pfile : Option FLoc
  lastelem : List Char
deriving DecidableEq, Repr

instance : Inhabited WalkOut :=
  ⟨{ code := 0, pdir := none, pfile := none, lastelem := [] }⟩

/-- Main loop of fs.c `walk_path` (with the leading `skip_slash` of each
iteration folded into the same recursion): while the path is not exhausted,
take the next component, fail with `-E_BAD_PATH` when its length reaches
MAXNAMELEN (`path - p >= MAXNAMELEN`), fail with `-E_NOT_FOUND` when the
current node is not a directory, and look the component up; a
`-E_NOT_FOUND` miss with nothing left after the component reports the
parent directory and the component in `lastelem`. -/
def walk_loop (st : FsState) (dir : Option FLoc) (file : FLoc) :
    List Char → Nat → Option (WalkOut × FsState)
  | _, 0 => none
  | [], _ + 1 =>
    some ({ code := 0, pdir := dir, pfile := some file, lastelem := [] }, st)
  | c :: cs, fuel + 1 =>
    if c = '/' then walk_loop st dir file cs fuel
    else
      let dir2 := file
      let comp := takeComp (c :: cs)
      let name := comp.1
      let rest := skip_slash comp.2
      if MAXNAMELEN ≤ name.length then
        some ({ code := -E_BAD_PATH, pdir := none, pfile := none, lastelem := [] }, st)
      else if (getFile st dir2).ftype ≠ FTYPE_DIR then
        some ({ code := -E_NOT_FOUND, pdir := none, pfile := none, lastelem := [] }, st)
      else
        match dir_lookup st dir2 name with
        | none => none
        | some (r, fl, st1) =>
          if r < 0 then
            if r = -E_NOT_FOUND ∧ rest = [] then
              some ({ code := r, pdir := some dir2, pfile := none, lastelem := name }, st1)
            else
              some ({ code := r, pdir := none, pfile := none, lastelem := [] }, st1)
          else
            match fl with
            | none => none
            | some floc => walk_loop st1 (some dir2) floc rest fuel

/-- Evaluate a path name starting at the root (fs.c `walk_path`).  Every
step of `walk_loop` consumes at least one character of the path, so the
fuel `path.length + 1` is never exhausted: the fuel-out branch of the
structural recursion is unreachable from here. -/
def walk_path (st : FsState) (path : List Char) : Option (WalkOut × FsState) :=
  walk_loop st none .root (skip_slash path) ((skip_slash path).length + 1)

/-- Create the file named by `path` (fs.c `file_create`): the walk must
return `-E_NOT_FOUND` with a known parent directory; a record slot is then
obtained from `dir_alloc_file` and only its name field is written
(`strcpy(f->f_name, name)`); note the C code returns the walk's code, not
the allocation error, when `dir_alloc_file` fails. -/
def file_create (st : FsState) (path : List Char) :
    Option (Int × Option FLoc × FsState) :=
  match walk_path st path with
  | none => none
  | some (w, st1) =>
    if w.code = 0 then some (-E_FILE_EXISTS, none, st1)
    else if w.code ≠ -E_NOT_FOUND ∨ w.pdir = none then some (w.code, none, st1)
    else
      match w.pdir with
      | none => none
      | some dirLoc =>
        match dir_alloc_file st1 dirLoc with
        | none => none
        | some (r2, fl, st2) =>
          if r2 < 0 then some (w.code, none, st2)
          else
            match fl with
            | none => none
            | some loc =>
              let frec := getFile st2 loc
              let st3 := setFile st2 loc { frec with fname := w.lastelem }
              some (0, some loc, st3)

/-! Copy-on-write fork (src/user/fork.c lines 126-161).  The page-table
entry bits PTE_V, PTE_R, PTE_COW, PTE_LIBRARY come from mmu.h which is a
kernel header outside src/; the permission word is modelled from the spec
as the four orthogonal flags valid, writable, copy-on-write and
library-shared. -/

/-- Permission bits of a page-table entry (`vpt[pn] & 0xfff`). -/
structure Perm where
  v : Bool
  r : Bool
  cow : Bool
  library : Bool
deriving DecidableEq, Repr, Fintype

/-- Duplicate one page into the child during fork (fork.c `duppage`): with
`perm` the parent's permission bits of page pn, compute
`if ((perm & PTE_COW) || (perm & PTE_R) && !(perm & PTE_LIBRARY)) perm |= PTE_COW`
and map the page with the resulting permission into the child
(`syscall_mem_map(0, addr, envid, addr, perm)`) and then back into the
parent (`syscall_mem_map(0, addr, 0, addr, perm)`); the returned pair is
(child's new permission, parent's new permission) of the shared physical
page. -/
def duppage (perm : Perm) : Perm × Perm :=
  let perm2 :=
    if perm.cow || (perm.r && !perm.library) then { perm with cow := true }
    else perm
  (perm2, perm2)

/-! Statement helpers (used to phrase the verified properties; they are not
part of the embedded program). -/

/-- Value of an `Option` result, with the `Inhabited` default standing for
the never-inspected outputs of a crashed computation. -/
def resVal {α : Type} [Inhabited α] (o : Option α) : α := o.getD default

/-- Statement helper: the block number stored in the logical slot `i` of
file f as seen in state st (direct slot for `i < NDIRECT`, entry of the
resident indirect block for `NDIRECT ≤ i < NINDIRECT`, 0 when no such slot
exists). -/
def slotVal (st : FsState) (f : File) (i : Nat) : Nat :=
  if i < NDIRECT then f.fdirect.getD i 0
  else if i < NINDIRECT ∧ f.findirect ≠ 0 then st.mem f.findirect i
  else 0

/-- Statement helper: the non-zero block numbers held by the logical slots
`[a, a + n)` of file f in state st — the blocks that clearing those slots
frees. -/
def freedList (st : FsState) (f : File) (a n : Nat) : List Nat :=
  (List.range' a n).filterMap
    (fun i => if slotVal st f i ≠ 0 then some (slotVal st f i) else none)

/-- Statement helper: the `/`-delimited components of a path, mirroring the
component extraction of `walk_loop` (with the same fuel discipline). -/
def comps_loop : List Char → Nat → List (List Char)
  | _, 0 => []
  | [], _ + 1 => []
  | c :: cs, fuel + 1 =>
    if c = '/' then comps_loop cs fuel
    else
      let comp := takeComp (c :: cs)
      comp.1 :: comps_loop (skip_slash comp.2) fuel

/-- Statement helper: the `/`-delimited components of a path. -/
def pathComps (p : List Char) : List (List Char) := comps_loop p (p.length + 1)

/-! Concrete states and files used by the closed theorems (counterexamples,
failing-input evaluations and witnesses). -/

/-- A state whose only resident data block is block 5 (plus nothing else):
the failing input for the sync write-back property. -/
def stSync : FsState := { FsState.dflt with
  superLoaded := true, bitmapLoaded := true, nblocks := 8
  mapped := fun b => b == 5 }

/-- A file of two blocks backed by the resident blocks 5 and 6, and a state
where both are resident and in use: the failing input for the flush
write-back property. -/
def fileFlushEx : File := { File.dflt with
  fsize := 2 * BY2BLK
  fdirect := [5, 6, 0, 0, 0, 0, 0, 0, 0, 0] }

/-- State for `fileFlushEx`: blocks 5 and 6 resident and marked in use. -/
def stFlush : FsState := { FsState.dflt with
  superLoaded := true, bitmapLoaded := true, nblocks := 8
  mapped := fun b => b == 5 || b == 6 }

/-- A loaded state whose only free block is block 3, with block 0 resident
(as `check_write_block` leaves it): the failing input for the allocation
flush target. -/
def stAlloc : FsState := { FsState.dflt with
  superLoaded := true, bitmapLoaded := true, nblocks := 16
  bitmap := fun b => b == 3, mapped := fun b => b == 0 }

/-- `stAlloc` with the kernel refusing to map a page at block 3: exercises
the allocation failure path. -/
def stAllocFail : FsState := { stAlloc with memAllocFails := fun b => b == 3 }

/-- A loaded state whose only free block is block 4, which is still
resident with stale contents (its word 0 reads 99): the input showing that
a freshly allocated indirect block is not zeroed. -/
def stStale : FsState := { FsState.dflt with
  superLoaded := true, bitmapLoaded := true, nblocks := 16
  bitmap := fun b => b == 4, mapped := fun b => b == 0 || b == 4
  mem := fun b i => if b = 4 ∧ i = 0 then 99 else 0 }

/-- `stStale` with block 4 not resident: the fresh-page case of indirect
allocation. -/
def stFresh : FsState := { stStale with mapped := fun b => b == 0 }

/-- A three-block file with no indirect block, used to evaluate truncation. -/
def fileTrunc : File := { File.dflt with
  fsize := 3 * BY2BLK
  fdirect := [7, 8, 9, 0, 0, 0, 0, 0, 0, 0] }

/-- Root directory record of the walk examples: a one-block directory
backed by block 5. -/
def rootEx : File := { File.dflt with
  ftype := FTYPE_DIR
  fsize := BY2BLK
  fdirect := [5, 0, 0, 0, 0, 0, 0, 0, 0, 0] }

/-- State of the walk examples: the root directory's block 5 is resident
and holds one file named "x" in record slot 0; record slot 1 is free (its
name starts with NUL) but still holds stale field values (size 7777, type
1, indirect 9) from a previous life. -/
def stWalk : FsState := { FsState.dflt with
  superLoaded := true, bitmapLoaded := true, nblocks := 16
  mapped := fun b => b == 0 || b == 5
  rootRec := rootEx
  recs := fun b j =>
    if b = 5 ∧ j = 0 then { File.dflt with fname := ['x'], fsize := 7 }
    else if b = 5 ∧ j = 1 then
      { File.dflt with fsize := 7777, ftype := 1, findirect := 9 }
    else File.dflt }

/-- Statement helper: result of the path walk (output record and state). -/
def walkRes (st : FsState) (path : List Char) : WalkOut × FsState :=
  resVal (walk_path st path)

/-- Statement helper: result of `dir_alloc_file` run in the state the walk
left, at the parent directory the walk reported. -/
def allocRes (st : FsState) (path : List Char) (d : FLoc) :
    Int × Option FLoc × FsState :=
  resVal (dir_alloc_file (walkRes st path).2 d)

/-- Statement helper: result of `file_create`. -/
def createRes (st : FsState) (path : List Char) : Int × Option FLoc × FsState :=
  resVal (file_create st path)

/-! Helper lemmas shared by the claim theorems. -/

theorem block_is_dirty_false (st : FsState) (b : Nat) :
    block_is_dirty st b = false := by
  simp [block_is_dirty, va_is_dirty]

theorem sync_fold_id (l : List Nat) (st : FsState) :
    l.foldl (fun s i => if block_is_dirty s i then (write_block s i).getD s else s)
      st = st := by
  induction l generalizing st with
  | nil => rfl
  | cons a l ih => simp [block_is_dirty_false, ih]

theorem fs_sync_id (st : FsState) : fs_sync st = st := sync_fold_id _ st

theorem alloc_scan_some (bm : Nat → Bool) :
    ∀ n b x, alloc_scan bm b n = some x → b ≤ x ∧ bm x = true := by
  intro n
  induction n with
  | zero => intro b x h; simp [alloc_scan] at h
  | succ n ih =>
    intro b x h
    simp only [alloc_scan] at h
    by_cases hb : bm b
    · rw [if_pos hb] at h
      injection h with h
      subst h
      exact ⟨le_refl _, hb⟩
    · rw [if_neg hb] at h
      obtain ⟨h1, h2⟩ := ih (b + 1) x h
      exact ⟨by omega, h2⟩

theorem write_block_some (st : FsState) (b : Nat) (st2 : FsState)
    (h : write_block st b = some st2) :
    st2.bitmap = st.bitmap ∧ st2.mapped = st.mapped ∧ st2.mem = st.mem ∧
    st2.nblocks = st.nblocks ∧ st2.superLoaded = st.superLoaded ∧
    st2.bitmapLoaded = st.bitmapLoaded ∧ st2.recs = st.recs ∧
    st2.rootRec = st.rootRec ∧ st2.memAllocFails = st.memAllocFails := by
  unfold write_block at h
  split at h
  · exact absurd h (by simp)
  · injection h with h
    subst h
    exact ⟨rfl, rfl, rfl, rfl, rfl, rfl, rfl, rfl, rfl⟩

theorem map_block_snd_bitmap (st : FsState) (b : Nat) :
    (map_block st b).2.bitmap = st.bitmap := by
  unfold map_block
  split
  · rfl
  · split <;> rfl

theorem free_block_of_ne (st : FsState) (b : Nat) (h : b ≠ 0) :
    free_block st b =
      some { st with bitmap := fun n => if n = b then true else st.bitmap n } := by
  unfold free_block
  exact if_neg h

/-! Claim C1. -/

/-- Claim C1 (code bug, evaluation at the failing input): fs.c's
`va_is_dirty` returns 0 unconditionally ("we have no PTE_D"), so
`block_is_dirty` is constantly false and `fs_sync` issues no disk write at
all even when blocks are resident — contrary to the write-back design that
treats every resident block as dirty.  In state `stSync`, block 5 is
resident yet `fs_sync` writes nothing; in state `stFlush`, blocks 5 and 6
back the two blocks of `fileFlushEx` and are resident, yet `file_flush`
writes nothing. -/
theorem c1_fs_sync_flush_write_nothing :
    stSync.mapped 5 = true ∧ (fs_sync stSync).writes = [] ∧
    stFlush.mapped 5 = true ∧ stFlush.mapped 6 = true ∧
    ((file_flush stFlush fileFlushEx).map fun p => p.2.writes) = some [] :=
  ⟨by decide, by decide, by decide, by decide, by decide⟩

/-! Claim C2. -/

/-- Claim C2 (code bug, evaluation at the failing input): in state
`stAlloc` the first free block from 3 upward is block 3, whose bitmap bit
lives in bitmap block `2 + 3 / BIT2BLK = 2`; `alloc_block_num` clears the
bit and returns 3, but flushes `write_block(3 / BIT2BLK)`, i.e. block 0
(the boot record), and never writes the containing bitmap block. -/
theorem c2_alloc_flushes_wrong_block :
    ((alloc_block_num stAlloc).map fun p => (p.1, p.2.writes, p.2.bitmap 3)) =
      some ((3 : Int), [0], false) ∧
    2 + 3 / BIT2BLK = 2 ∧
    (2 + 3 / BIT2BLK) ∉ (resVal (alloc_block_num stAlloc)).2.writes :=
  ⟨by decide, by decide, by decide⟩

/-! Claim C3. -/

/-- Claim C3 (code bug, evaluation at the failing input): for a file with
no indirect block and `NDIRECT ≤ filebno < NINDIRECT`, `file_block_walk`
returns `-E_NOT_FOUND` leaving the local slot pointer NULL, and
`file_clear_block` then evaluates `*ptr` — a NULL dereference (modelled as
the crash `none`) instead of the silent success the design asks for. -/
theorem c3_clear_block_null_deref :
    NDIRECT ≤ 10 ∧ 10 < NINDIRECT ∧ File.dflt.findirect = 0 ∧
    file_clear_block stAlloc File.dflt 10 = none :=
  ⟨by decide, by decide, rfl, rfl⟩

/-! Claim C10. -/

/-- Claim C10 (confirmed): `block_is_free` is total and guarded: with the
superblock not loaded or the block number at least `s_nblocks` it returns
0 (in use), and otherwise it returns 1 exactly when bit blockno of the
bitmap is set. -/
theorem c10_block_is_free_guarded :
    ∀ (st : FsState) (b : Nat),
      (st.superLoaded = false ∨ st.nblocks ≤ b → block_is_free st b = false) ∧
      (st.superLoaded = true → b < st.nblocks →
        (block_is_free st b = true ↔ st.bitmap b = true)) := by
  intro st b
  constructor
  · intro h
    unfold block_is_free
    rw [if_pos h]
  · intro h1 h2
    unfold block_is_free
    rw [if_neg]
    rintro (h3 | h3)
    · rw [h1] at h3; cases h3
    · omega

/-- Witness for C10 at concrete inputs: the unloaded state treats block 5
as in use, and in the loaded state `stAlloc` freeness of block 3 is exactly
its bitmap bit. -/
theorem c10_block_is_free_guarded_witness :
    block_is_free FsState.dflt 5 = false ∧
    (block_is_free stAlloc 3 = true ↔ stAlloc.bitmap 3 = true) :=
  ⟨(c10_block_is_free_guarded FsState.dflt 5).1 (Or.inl rfl),
   (c10_block_is_free_guarded stAlloc 3).2 rfl (by decide)⟩

/-! Claim C7. -/

/-- Claim C7 (confirmed): for every page `duppage` handles, a
library-shared page is mapped into the child with its permission bits
unchanged and the parent's mapping is re-established unchanged; a
non-library page that is writable (PTE_R) or already copy-on-write is
remapped in both parent and child with the copy-on-write marker set. -/
theorem c7_duppage_cow_library :
    ∀ p : Perm,
      (p.library = true → duppage p = (p, p)) ∧
      (p.library = false → (p.r || p.cow) = true →
        duppage p = ({ p with cow := true }, { p with cow := true })) := by
  decide

/-- Witness for C7 at concrete permissions: a writable library page is
passed through untouched; a writable private page becomes copy-on-write in
both mappings. -/
theorem c7_duppage_cow_library_witness :
    duppage ⟨true, true, false, true⟩ =
      (⟨true, true, false, true⟩, ⟨true, true, false, true⟩) ∧
    duppage ⟨true, true, false, false⟩ =
      (⟨true, true, true, false⟩, ⟨true, true, true, false⟩) :=
  ⟨(c7_duppage_cow_library ⟨true, true, false, true⟩).1 rfl,
   (c7_duppage_cow_library ⟨true, true, false, false⟩).2 rfl rfl⟩

/-! Claim C9. -/

/-- Claim C9 (confirmed): `alloc_block` is atomic on failure: on any error
return (`-E_NO_DISK` from the scan, or a mapping failure, after which
`free_block` restores the bit), the in-memory bitmap is bit-for-bit what it
was at the call. -/
theorem c9_alloc_block_failure_atomic :
    ∀ st : FsState, (alloc_block st).isSome = true →
      (resVal (alloc_block st)).1 < 0 →
      ∀ n, (resVal (alloc_block st)).2.bitmap n = st.bitmap n := by
  intro st hs hneg n
  cases hscan : alloc_scan st.bitmap 3 (st.nblocks - 3) with
  | none =>
    simp [alloc_block, alloc_block_num, hscan, resVal, E_NO_DISK]
  | some blockno =>
    obtain ⟨hge, hbit⟩ := alloc_scan_some st.bitmap _ _ _ hscan
    simp only [alloc_block, alloc_block_num, hscan] at hs hneg ⊢
    cases hw : write_block
        { st with bitmap := fun n => if n = blockno then false else st.bitmap n }
        (blockno / BIT2BLK) with
    | none =>
      rw [hw] at hs
      simp at hs
    | some st2 =>
      rw [hw] at hneg
      have hb2 := (write_block_some _ _ _ hw).1
      have hnn : ¬((blockno : Int) < 0) := by omega
      simp only [resVal, Option.getD_some, if_neg hnn, Int.toNat_ofNat] at hneg ⊢
      by_cases hm : (map_block st2 blockno).1 < 0
      · simp only [if_pos hm] at hneg ⊢
        have hbz : blockno ≠ 0 := by omega
        rw [free_block_of_ne _ _ hbz] at hneg ⊢
        simp only [resVal, Option.getD_some]
        rw [map_block_snd_bitmap st2 blockno, hb2]
        by_cases hn : n = blockno
        · rw [if_pos hn, hn, hbit]
        · rw [if_neg hn]
          simp only [if_neg hn]
      · simp only [if_neg hm] at hneg
        simp only [resVal, Option.getD_some] at hneg
        omega

/-- Witness for C9: in `stAllocFail` the kernel refuses the page for block
3; `alloc_block` fails with a negative code and bit 3 of the bitmap is
restored (still free). -/
theorem c9_alloc_block_failure_atomic_witness :
    (alloc_block stAllocFail).isSome = true ∧
    (resVal (alloc_block stAllocFail)).1 < 0 ∧
    (resVal (alloc_block stAllocFail)).2.bitmap 3 = stAllocFail.bitmap 3 :=
  ⟨by decide, by decide,
   c9_alloc_block_failure_atomic stAllocFail (by decide) (by decide) 3⟩

/-! Claim C4. -/

theorem read_block_of_mapped (st : FsState) (b : Nat) (h : st.mapped b = true) :
    read_block st b = none ∨ read_block st b = some (st, false) := by
  unfold read_block
  split
  · exact Or.inl rfl
  · split
    · exact Or.inl rfl
    · simp [h]

theorem alloc_block_pos (st : FsState) (r1 : Int) (st1 : FsState)
    (h : alloc_block st = some (r1, st1)) (hr : ¬r1 < 0) :
    ∃ blockno : Nat, r1 = (blockno : Int) ∧ 3 ≤ blockno ∧
      st.bitmap blockno = true ∧
      st1.mapped blockno = true ∧
      st1.nblocks = st.nblocks ∧ st1.superLoaded = st.superLoaded ∧
      st1.bitmapLoaded = st.bitmapLoaded ∧
      st1.bitmap blockno = false ∧
      (st.mapped blockno = true → ∀ i, st1.mem blockno i = st.mem blockno i) ∧
      (st.mapped blockno = false → ∀ i, st1.mem blockno i = 0) := by
  cases hscan : alloc_scan st.bitmap 3 (st.nblocks - 3) with
  | none =>
    have hlt : (-E_NO_DISK : Int) < 0 := by norm_num [E_NO_DISK]
    simp only [alloc_block, alloc_block_num, hscan, if_pos hlt,
      Option.some.injEq, Prod.mk.injEq] at h
    exact absurd (h.1 ▸ hlt) hr
  | some blockno =>
    obtain ⟨hge, hbit⟩ := alloc_scan_some st.bitmap _ _ _ hscan
    simp only [alloc_block, alloc_block_num, hscan] at h
    cases hw : write_block
        { st with bitmap := fun n => if n = blockno then false else st.bitmap n }
        (blockno / BIT2BLK) with
    | none =>
      rw [hw] at h
      cases h
    | some st2 =>
      rw [hw] at h
      obtain ⟨hwb, hwm, hwmem, hwn, hwsl, hwbl, -⟩ := write_block_some _ _ _ hw
      have hnn : ¬((blockno : Int) < 0) := by omega
      simp only [if_neg hnn, Int.toNat_ofNat] at h
      by_cases hm : (map_block st2 blockno).1 < 0
      · simp only [if_pos hm] at h
        have hbz : blockno ≠ 0 := by omega
        rw [free_block_of_ne _ _ hbz] at h
        simp only [Option.some.injEq, Prod.mk.injEq] at h
        exact absurd (h.1 ▸ hm) hr
      · simp only [if_neg hm] at h
        simp only [Option.some.injEq, Prod.mk.injEq] at h
        obtain ⟨hr1, hst1⟩ := h
        refine ⟨blockno, hr1.symm, hge, hbit, ?_⟩
        subst hst1
        unfold map_block
        by_cases hmp : st2.mapped blockno = true
        · rw [if_pos hmp]
          have hmap : st.mapped blockno = true := by rw [← hwm]; exact hmp
          refine ⟨hmp, ?_, ?_, ?_, ?_, fun _ i => ?_, fun hc i => ?_⟩
          · exact hwn
          · exact hwsl
          · exact hwbl
          · rw [hwb]; exact if_pos rfl
          · rw [hwmem]
          · rw [hmap] at hc; cases hc
        · rw [if_neg hmp]
          have hmap : st.mapped blockno = false := by
            rw [← hwm]
            simpa using hmp
          have hmf : st2.memAllocFails blockno = false := by
            by_contra hc
            simp only [Bool.not_eq_false] at hc
            apply hm
            unfold map_block
            rw [if_neg hmp, if_pos hc]
            norm_num [E_NO_MEM]
          rw [if_neg (by simp [hmf])]
          refine ⟨by simp, ?_, ?_, ?_, ?_, fun hc i => ?_, fun _ i => by simp⟩
          · exact hwn
          · exact hwsl
          · exact hwbl
          · rw [hwb]; exact if_pos rfl
          · rw [hmap] at hc; cases hc

/-- Claim C4 (corrected, the amended statement): for `NDIRECT ≤ filebno <
NINDIRECT` and a file with no indirect block, a successful
`file_block_walk` with alloc requested allocates a previously free block,
stores its number in `f_indirect` and returns the slot pointer into it —
but the walk itself never zeroes the block: if the block's page was not
resident it is backed by a fresh zero-filled kernel page (contents read as
zero), while if it was still resident its stale contents are retained
unzeroed. -/
theorem c4_walk_alloc_indirect :
    ∀ (st : FsState) (f : File) (filebno : Nat),
      NDIRECT ≤ filebno → filebno < NINDIRECT → f.findirect = 0 →
      (file_block_walk st f filebno true).isSome = true →
      (resVal (file_block_walk st f filebno true)).1 = 0 →
      (resVal (file_block_walk st f filebno true)).2.2.1.findirect ≠ 0 ∧
      st.bitmap (resVal (file_block_walk st f filebno true)).2.2.1.findirect = true ∧
      (resVal (file_block_walk st f filebno true)).2.1 =
        Slot.ind (resVal (file_block_walk st f filebno true)).2.2.1.findirect filebno ∧
      (st.mapped (resVal (file_block_walk st f filebno true)).2.2.1.findirect = true →
        ∀ i, (resVal (file_block_walk st f filebno true)).2.2.2.mem
          (resVal (file_block_walk st f filebno true)).2.2.1.findirect i =
          st.mem (resVal (file_block_walk st f filebno true)).2.2.1.findirect i) ∧
      (st.mapped (resVal (file_block_walk st f filebno true)).2.2.1.findirect = false →
        ∀ i, (resVal (file_block_walk st f filebno true)).2.2.2.mem
          (resVal (file_block_walk st f filebno true)).2.2.1.findirect i = 0) := by
  intro st f filebno h10 h1024 hi0 hs h0
  have hnd : ¬filebno < NDIRECT := by omega
  simp only [file_block_walk, if_neg hnd, if_pos h1024, if_pos hi0,
    Bool.true_eq_false, if_false] at hs h0 ⊢
  cases ha : alloc_block st with
  | none =>
    rw [ha] at hs
    simp at hs
  | some p =>
    obtain ⟨r1, st1⟩ := p
    rw [ha] at hs h0
    by_cases hr : r1 < 0
    · simp only [if_pos hr, resVal, Option.getD_some] at h0
      omega
    · simp only [if_neg hr] at hs h0 ⊢
      obtain ⟨blockno, hr1, hge, hbit, hmapd, -, -, -, -, hmem1, hmem2⟩ :=
        alloc_block_pos st r1 st1 ha hr
      subst hr1
      simp only [Int.toNat_ofNat] at hs h0 ⊢
      rcases read_block_of_mapped st1 blockno hmapd with hrb | hrb
      · rw [hrb] at hs
        simp at hs
      · rw [hrb] at h0 ⊢
        simp only [resVal, Option.getD_some]
        exact ⟨by omega, hbit, by first | rfl | trivial,
          fun hmp i => hmem1 hmp i, fun hmp i => hmem2 hmp i⟩

/-- Counterexample for C4 as stated: in `stStale` the block allocated for
the indirect table, block 4, is still resident with stale word 99 at index
0; the walk succeeds and stores 4 in `f_indirect`, but the block's
contents are not zeroed (word 0 still reads 99). -/
theorem c4_walk_alloc_indirect_cx :
    ((file_block_walk stStale File.dflt 10 true).map
      (fun p => (p.1, p.2.1, p.2.2.1.findirect, p.2.2.2.mem 4 0))) =
      some ((0 : Int), Slot.ind 4 10, 4, 99) ∧
    stStale.mapped 4 = true ∧ (99 : Nat) ≠ 0 :=
  ⟨by decide, by decide, by decide⟩

/-- Witness for C4 (amended) at `stFresh`: block 4 is allocated while not
resident, so the fresh kernel page makes its contents read as zero. -/
theorem c4_walk_alloc_indirect_witness :
    NDIRECT ≤ 10 ∧ 10 < NINDIRECT ∧ File.dflt.findirect = 0 ∧
    (file_block_walk stFresh File.dflt 10 true).isSome = true ∧
    (resVal (file_block_walk stFresh File.dflt 10 true)).1 = 0 ∧
    stFresh.mapped
      (resVal (file_block_walk stFresh File.dflt 10 true)).2.2.1.findirect = false ∧
    (resVal (file_block_walk stFresh File.dflt 10 true)).2.2.2.mem
      (resVal (file_block_walk stFresh File.dflt 10 true)).2.2.1.findirect 0 = 0 :=
  ⟨by decide, by decide, rfl, by decide, by decide, by decide,
   (c4_walk_alloc_indirect stFresh File.dflt 10 (by decide) (by decide) rfl
     (by decide) (by decide)).2.2.2.2 (by decide) 0⟩

/-! Claim C6: error-code range lemmas (no layer below the walk can produce
`-E_BAD_PATH`). -/

theorem map_block_fst (st : FsState) (b : Nat) :
    (map_block st b).1 = 0 ∨ (map_block st b).1 = -E_NO_MEM := by
  unfold map_block
  split
  · exact Or.inl rfl
  · split
    · exact Or.inr rfl
    · exact Or.inl rfl

theorem alloc_block_code (st : FsState) (r : Int) (st1 : FsState)
    (h : alloc_block st = some (r, st1)) :
    r = -E_NO_DISK ∨ r = -E_NO_MEM ∨ 0 ≤ r := by
  cases hscan : alloc_scan st.bitmap 3 (st.nblocks - 3) with
  | none =>
    simp only [alloc_block, alloc_block_num, hscan,
      if_pos (show (-E_NO_DISK : Int) < 0 by norm_num [E_NO_DISK]),
      Option.some.injEq, Prod.mk.injEq] at h
    exact Or.inl h.1.symm
  | some blockno =>
    obtain ⟨hge, -⟩ := alloc_scan_some st.bitmap _ _ _ hscan
    simp only [alloc_block, alloc_block_num, hscan] at h
    cases hw : write_block
        { st with bitmap := fun n => if n = blockno then false else st.bitmap n }
        (blockno / BIT2BLK) with
    | none => rw [hw] at h; cases h
    | some st2 =>
      rw [hw] at h
      simp only [if_neg (show ¬((blockno : Int) < 0) by omega),
        Int.toNat_ofNat] at h
      by_cases hm : (map_block st2 blockno).1 < 0
      · simp only [if_pos hm] at h
        rw [free_block_of_ne _ _ (by omega)] at h
        simp only [Option.some.injEq, Prod.mk.injEq] at h
        rcases map_block_fst st2 blockno with h2 | h2
        · rw [h2] at hm; exact absurd hm (by norm_num)
        · exact Or.inr (Or.inl (h.1 ▸ h2))
      · simp only [if_neg hm] at h
        simp only [Option.some.injEq, Prod.mk.injEq] at h
        refine Or.inr (Or.inr ?_)
        rw [← h.1]
        omega

theorem file_block_walk_code (st : FsState) (f : File) (n : Nat) (al : Bool)
    (r : Int) (slot : Slot) (f1 : File) (st1 : FsState)
    (h : file_block_walk st f n al = some (r, slot, f1, st1)) :
    r = 0 ∨ r = -E_NOT_FOUND ∨ r = -E_INVAL ∨ r = -E_NO_DISK ∨ r = -E_NO_MEM := by
  unfold file_block_walk at h
  by_cases h1 : n < NDIRECT
  · simp only [if_pos h1] at h
    simp only [Option.some.injEq, Prod.mk.injEq] at h
    exact Or.inl h.1.symm
  · simp only [if_neg h1] at h
    by_cases h2 : n < NINDIRECT
    · simp only [if_pos h2] at h
      by_cases h3 : f.findirect = 0
      · simp only [if_pos h3] at h
        by_cases h4 : al = false
        · simp only [if_pos h4] at h
          simp only [Option.some.injEq, Prod.mk.injEq] at h
          exact Or.inr (Or.inl h.1.symm)
        · simp only [if_neg h4] at h
          cases ha : alloc_block st with
          | none => rw [ha] at h; cases h
          | some p =>
            obtain ⟨r1, st2⟩ := p
            rw [ha] at h
            by_cases hr : r1 < 0
            · simp only [if_pos hr] at h
              simp only [Option.some.injEq, Prod.mk.injEq] at h
              rcases alloc_block_code st r1 st2 ha with h5 | h5 | h5
              · exact Or.inr (Or.inr (Or.inr (Or.inl (h.1.symm.trans h5))))
              · exact Or.inr (Or.inr (Or.inr (Or.inr (h.1.symm.trans h5))))
              · omega
            · simp only [if_neg hr] at h
              cases hrb : read_block st2 r1.toNat with
              | none => rw [hrb] at h; cases h
              | some q =>
                obtain ⟨st3, isnew⟩ := q
                rw [hrb] at h
                simp only [Option.some.injEq, Prod.mk.injEq] at h
                exact Or.inl h.1.symm
      · simp only [if_neg h3] at h
        cases hrb : read_block st f.findirect with
        | none => rw [hrb] at h; cases h
        | some q =>
          obtain ⟨st3, isnew⟩ := q
          rw [hrb] at h
          simp only [Option.some.injEq, Prod.mk.injEq] at h
          exact Or.inl h.1.symm
    · simp only [if_neg h2] at h
      simp only [Option.some.injEq, Prod.mk.injEq] at h
      exact Or.inr (Or.inr (Or.inl h.1.symm))

theorem file_map_block_code (st : FsState) (f : File) (n : Nat) (al : Bool)
    (r : Int) (dbno : Nat) (f1 : File) (st1 : FsState)
    (h : file_map_block st f n al = some (r, dbno, f1, st1)) :
    r = 0 ∨ r = -E_NOT_FOUND ∨ r = -E_INVAL ∨ r = -E_NO_DISK ∨ r = -E_NO_MEM := by
  unfold file_map_block at h
  cases hwk : file_block_walk st f n al with
  | none => rw [hwk] at h; cases h
  | some p =>
    obtain ⟨r0, slot, f2, st2⟩ := p
    rw [hwk] at h
    by_cases hr0 : r0 < 0
    · simp only [if_pos hr0] at h
      simp only [Option.some.injEq, Prod.mk.injEq] at h
      exact h.1 ▸ file_block_walk_code st f n al r0 slot f2 st2 hwk
    · simp only [if_neg hr0] at h
      by_cases hz : readSlot st2 f2 slot = 0
      · simp only [if_pos hz] at h
        by_cases h4 : al = false
        · simp only [if_pos h4] at h
          simp only [Option.some.injEq, Prod.mk.injEq] at h
          exact Or.inr (Or.inl h.1.symm)
        · simp only [if_neg h4] at h
          cases ha : alloc_block st2 with
          | none => rw [ha] at h; cases h
          | some q =>
            obtain ⟨r2, st3⟩ := q
            rw [ha] at h
            by_cases hr2 : r2 < 0
            · simp only [if_pos hr2] at h
              simp only [Option.some.injEq, Prod.mk.injEq] at h
              rcases alloc_block_code st2 r2 st3 ha with h5 | h5 | h5
              · exact Or.inr (Or.inr (Or.inr (Or.inl (h.1.symm.trans h5))))
              · exact Or.inr (Or.inr (Or.inr (Or.inr (h.1.symm.trans h5))))
              · omega
            · simp only [if_neg hr2] at h
              simp only [Option.some.injEq, Prod.mk.injEq] at h
              exact Or.inl h.1.symm
      · simp only [if_neg hz] at h
        simp only [Option.some.injEq, Prod.mk.injEq] at h
        exact Or.inl h.1.symm

theorem file_get_block_code (st : FsState) (f : File) (n : Nat)
    (r : Int) (dbno : Nat) (f1 : File) (st1 : FsState)
    (h : file_get_block st f n = some (r, dbno, f1, st1)) :
    r = 0 ∨ r = -E_NOT_FOUND ∨ r = -E_INVAL ∨ r = -E_NO_DISK ∨ r = -E_NO_MEM := by
  unfold file_get_block at h
  cases hm : file_map_block st f n true with
  | none => rw [hm] at h; cases h
  | some p =>
    obtain ⟨r0, db, f2, st2⟩ := p
    rw [hm] at h
    by_cases hr0 : r0 < 0
    · simp only [if_pos hr0] at h
      simp only [Option.some.injEq, Prod.mk.injEq] at h
      exact h.1 ▸ file_map_block_code st f n true r0 db f2 st2 hm
    · simp only [if_neg hr0] at h
      cases hrb : read_block st2 db with
      | none => rw [hrb] at h; cases h
      | some q =>
        obtain ⟨st3, isnew⟩ := q
        rw [hrb] at h
        simp only [Option.some.injEq, Prod.mk.injEq] at h
        exact Or.inl h.1.symm

theorem dir_lookup_loop_code :
    ∀ (n : Nat) (st : FsState) (dirLoc : FLoc) (name : List Char) (i : Nat)
      (r : Int) (fl : Option FLoc) (st2 : FsState),
      dir_lookup_loop st dirLoc name i n = some (r, fl, st2) →
      r = 0 ∨ r = -E_NOT_FOUND ∨ r = -E_INVAL ∨ r = -E_NO_DISK ∨ r = -E_NO_MEM := by
  intro n
  induction n with
  | zero =>
    intro st dirLoc name i r fl st2 h
    simp only [dir_lookup_loop, Option.some.injEq, Prod.mk.injEq] at h
    exact Or.inr (Or.inl h.1.symm)
  | succ n ih =>
    intro st dirLoc name i r fl st2 h
    simp only [dir_lookup_loop] at h
    cases hg : file_get_block st (getFile st dirLoc) i with
    | none => rw [hg] at h; cases h
    | some p =>
      obtain ⟨r0, b, dir1, st1⟩ := p
      rw [hg] at h
      by_cases hr0 : r0 < 0
      · simp only [if_pos hr0] at h
        simp only [Option.some.injEq, Prod.mk.injEq] at h
        exact h.1 ▸ file_get_block_code _ _ _ _ _ _ _ hg
      · simp only [if_neg hr0] at h
        cases hsn : scan_name (setFile st1 dirLoc dir1) b name with
        | some j =>
          rw [hsn] at h
          simp only [Option.some.injEq, Prod.mk.injEq] at h
          exact Or.inl h.1.symm
        | none =>
          rw [hsn] at h
          exact ih _ _ _ _ _ _ _ h

theorem dir_lookup_code (st : FsState) (dirLoc : FLoc) (name : List Char)
    (r : Int) (fl : Option FLoc) (st2 : FsState)
    (h : dir_lookup st dirLoc name = some (r, fl, st2)) :
    r = 0 ∨ r = -E_NOT_FOUND ∨ r = -E_INVAL ∨ r = -E_NO_DISK ∨ r = -E_NO_MEM :=
  dir_lookup_loop_code _ st dirLoc name 0 r fl st2 h

theorem code_ne_badpath (r : Int)
    (h : r = 0 ∨ r = -E_NOT_FOUND ∨ r = -E_INVAL ∨ r = -E_NO_DISK ∨ r = -E_NO_MEM) :
    r ≠ -E_BAD_PATH := by
  rcases h with h | h | h | h | h <;> subst h <;>
    norm_num [E_NOT_FOUND, E_INVAL, E_NO_DISK, E_NO_MEM, E_BAD_PATH]

theorem skip_slash_ne_slash : ∀ (p : List Char) (c : Char) (cs : List Char),
    skip_slash p = c :: cs → c ≠ '/' := by
  intro p
  induction p with
  | nil =>
    intro c cs h
    simp [skip_slash] at h
  | cons c0 cs0 ih =>
    intro c cs h
    by_cases h0 : c0 = '/'
    · simp only [skip_slash, if_pos h0] at h
      exact ih c cs h
    · simp only [skip_slash, if_neg h0] at h
      injection h with h1 h2
      rw [← h1]
      exact h0

theorem walk_loop_badpath :
    ∀ (fuel : Nat) (p : List Char) (st : FsState) (dir : Option FLoc)
      (file : FLoc) (w : WalkOut) (st2 : FsState),
      walk_loop st dir file p fuel = some (w, st2) →
      w.code = -E_BAD_PATH →
      (comps_loop p fuel).any (fun comp => decide (MAXNAMELEN ≤ comp.length)) = true := by
  intro fuel
  induction fuel with
  | zero =>
    intro p st dir file w st2 h hbad
    simp [walk_loop] at h
  | succ fuel ih =>
    intro p st dir file w st2 h hbad
    cases p with
    | nil =>
      simp only [walk_loop, Option.some.injEq, Prod.mk.injEq] at h
      rw [← h.1] at hbad
      norm_num [E_BAD_PATH] at hbad
    | cons c cs =>
      simp only [walk_loop] at h
      by_cases hc : c = '/'
      · simp only [if_pos hc] at h
        have := ih cs st dir file w st2 h hbad
        simpa [comps_loop, if_pos hc] using this
      · simp only [if_neg hc] at h
        by_cases hlen : MAXNAMELEN ≤ (takeComp (c :: cs)).1.length
        · simp [comps_loop, if_neg hc, List.any_cons, hlen]
        · simp only [if_neg hlen] at h
          by_cases htype : (getFile st file).ftype ≠ FTYPE_DIR
          · simp only [if_pos htype, Option.some.injEq, Prod.mk.injEq] at h
            rw [← h.1] at hbad
            norm_num [E_BAD_PATH, E_NOT_FOUND] at hbad
          · simp only [if_neg htype] at h
            cases hdl : dir_lookup st file (takeComp (c :: cs)).1 with
            | none => rw [hdl] at h; cases h
            | some q =>
              obtain ⟨r, fl, st3⟩ := q
              rw [hdl] at h
              have hcode := dir_lookup_code st file _ r fl st3 hdl
              by_cases hr : r < 0
              · simp only [if_pos hr] at h
                by_cases hcond : r = -E_NOT_FOUND ∧ skip_slash (takeComp (c :: cs)).2 = []
                · simp only [if_pos hcond, Option.some.injEq, Prod.mk.injEq] at h
                  rw [← h.1] at hbad
                  simp at hbad
                  exact absurd hbad (code_ne_badpath r hcode)
                · simp only [if_neg hcond, Option.some.injEq, Prod.mk.injEq] at h
                  rw [← h.1] at hbad
                  simp at hbad
                  exact absurd hbad (code_ne_badpath r hcode)
              · simp only [if_neg hr] at h
                cases fl with
                | none => cases h
                | some floc =>
                  have hrec := ih _ st3 (some file) floc w st2 h hbad
                  simp [comps_loop, if_neg hc, List.any_cons, hrec]

theorem pathComps_skip (p : List Char) :
    pathComps p = comps_loop (skip_slash p) ((skip_slash p).length + 1) := by
  induction p with
  | nil => rfl
  | cons c cs ih =>
    unfold pathComps at ih ⊢
    by_cases hc : c = '/'
    · have h1 : skip_slash (c :: cs) = skip_slash cs := by
        simp [skip_slash, hc]
      have h2 : comps_loop (c :: cs) ((c :: cs).length + 1) =
          comps_loop cs (cs.length + 1) := by
        simp only [List.length_cons, comps_loop, if_pos hc]
      rw [h1, h2, ih]
    · have h1 : skip_slash (c :: cs) = c :: cs := by
        simp [skip_slash, hc]
      rw [h1]

theorem walk_path_first_long (st : FsState) (path : List Char)
    (h : MAXNAMELEN ≤ (takeComp (skip_slash path)).1.length) :
    ((walk_path st path).map fun p => p.1.code) = some (-E_BAD_PATH) := by
  unfold walk_path
  cases hq : skip_slash path with
  | nil =>
    rw [hq] at h
    norm_num [takeComp, MAXNAMELEN] at h
  | cons c cs =>
    have hc : c ≠ '/' := skip_slash_ne_slash path c cs hq
    rw [hq] at h
    simp only [List.length_cons, walk_loop, if_neg hc, if_pos h]
    rfl

/-- Claim C6 (corrected, the amended statement): the path walk rejects any
component whose length is MAXNAMELEN or more and accepts only components up
to MAXNAMELEN − 1: `walk_path` returns `-E_BAD_PATH` only when some
`/`-delimited component of the path has length ≥ MAXNAMELEN, and a path
whose first component (after leading slashes) has length ≥ MAXNAMELEN — in
particular exactly MAXNAMELEN — always fails with `-E_BAD_PATH`. -/
theorem c6_walk_badpath_boundary :
    (∀ (st : FsState) (path : List Char),
      (walk_path st path).isSome = true →
      (resVal (walk_path st path)).1.code = -E_BAD_PATH →
      (pathComps path).any (fun comp => decide (MAXNAMELEN ≤ comp.length)) = true) ∧
    (∀ (st : FsState) (path : List Char),
      MAXNAMELEN ≤ (takeComp (skip_slash path)).1.length →
      ((walk_path st path).map fun p => p.1.code) = some (-E_BAD_PATH)) := by
  constructor
  · intro st path hs hbad
    cases hw : walk_path st path with
    | none => rw [hw] at hs; cases hs
    | some q =>
      obtain ⟨w, st2⟩ := q
      rw [hw] at hbad
      simp only [resVal, Option.getD_some] at hbad
      rw [pathComps_skip]
      exact walk_loop_badpath _ _ st none .root w st2 hw hbad
  · exact walk_path_first_long

set_option maxRecDepth 100000 in
/-- Counterexample for C6 as stated: in `stWalk` a single-component path of
exactly MAXNAMELEN characters is rejected with `-E_BAD_PATH` (the claim
says it is accepted); the same path one character shorter gets through the
length check (failing only with `-E_NOT_FOUND` from the lookup). -/
theorem c6_walk_badpath_boundary_cx :
    ((walk_path stWalk (List.replicate MAXNAMELEN 'a')).map fun p => p.1.code) =
      some (-E_BAD_PATH) ∧
    (List.replicate MAXNAMELEN 'a').length = MAXNAMELEN ∧
    ((walk_path stWalk (List.replicate (MAXNAMELEN - 1) 'a')).map fun p => p.1.code) =
      some (-E_NOT_FOUND) :=
  ⟨by decide, by decide, by decide⟩

set_option maxRecDepth 100000 in
/-- Witness for C6 (amended) at the MAXNAMELEN-character path in `stWalk`. -/
theorem c6_walk_badpath_boundary_witness :
    (walk_path stWalk (List.replicate MAXNAMELEN 'b')).isSome = true ∧
    (resVal (walk_path stWalk (List.replicate MAXNAMELEN 'b'))).1.code = -E_BAD_PATH ∧
    (pathComps (List.replicate MAXNAMELEN 'b')).any
      (fun comp => decide (MAXNAMELEN ≤ comp.length)) = true ∧
    MAXNAMELEN ≤ (takeComp (skip_slash (List.replicate MAXNAMELEN 'b'))).1.length ∧
    ((walk_path stWalk (List.replicate MAXNAMELEN 'b')).map fun p => p.1.code) =
      some (-E_BAD_PATH) :=
  ⟨by decide, by decide,
   c6_walk_badpath_boundary.1 stWalk (List.replicate MAXNAMELEN 'b')
     (by decide) (by decide),
   by decide,
   c6_walk_badpath_boundary.2 stWalk (List.replicate MAXNAMELEN 'b') (by decide)⟩

/-! Claim C8. -/

/-- Claim C8 (confirmed): when the walk returns `-E_NOT_FOUND` at the last
component with a known parent directory d and `dir_alloc_file` hands out
the record slot (b, j), `file_create` writes only the name field of that
record — the final state is the post-allocation state with record (b, j)
replaced by the same record with `f_name := lastelem`; its size, type,
direct and indirect fields, every other record, the root record and the
whole rest of the state (bitmap, cache, mapping, write trace) are exactly
what `dir_alloc_file` left. -/
theorem c8_create_writes_only_name :
    ∀ (st : FsState) (path : List Char) (d : FLoc) (b j : Nat),
      (walk_path st path).isSome = true →
      (walkRes st path).1.code = -E_NOT_FOUND →
      (walkRes st path).1.pdir = some d →
      (dir_alloc_file (walkRes st path).2 d).isSome = true →
      (allocRes st path d).1 = 0 →
      (allocRes st path d).2.1 = some (FLoc.blk b j) →
      (file_create st path).isSome = true ∧
      (createRes st path).1 = 0 ∧
      (createRes st path).2.1 = some (FLoc.blk b j) ∧
      ((createRes st path).2.2.recs b j).fname = (walkRes st path).1.lastelem ∧
      ((createRes st path).2.2.recs b j).fsize =
        ((allocRes st path d).2.2.recs b j).fsize ∧
      ((createRes st path).2.2.recs b j).ftype =
        ((allocRes st path d).2.2.recs b j).ftype ∧
      ((createRes st path).2.2.recs b j).fdirect =
        ((allocRes st path d).2.2.recs b j).fdirect ∧
      ((createRes st path).2.2.recs b j).findirect =
        ((allocRes st path d).2.2.recs b j).findirect ∧
      ((createRes st path).2.2.recs b j).fdir =
        ((allocRes st path d).2.2.recs b j).fdir ∧
      (∀ b2 j2, ¬(b2 = b ∧ j2 = j) →
        (createRes st path).2.2.recs b2 j2 = (allocRes st path d).2.2.recs b2 j2) ∧
      (createRes st path).2.2.rootRec = (allocRes st path d).2.2.rootRec ∧
      (∀ v, (createRes st path).2.2.bitmap v = (allocRes st path d).2.2.bitmap v) ∧
      (∀ b2 i2, (createRes st path).2.2.mem b2 i2 =
        (allocRes st path d).2.2.mem b2 i2) ∧
      (∀ b2, (createRes st path).2.2.mapped b2 = (allocRes st path d).2.2.mapped b2) ∧
      (createRes st path).2.2.writes = (allocRes st path d).2.2.writes := by
  intro st path d b j hsw hcode hpdir hsa hac hal
  simp only [walkRes] at hcode hpdir hsa
  simp only [allocRes, walkRes] at hac hal
  simp only [createRes, walkRes, allocRes]
  cases hw : walk_path st path with
  | none => rw [hw] at hsw; cases hsw
  | some q =>
    obtain ⟨w, st1⟩ := q
    rw [hw] at hcode hpdir hsa hac hal
    simp only [resVal, Option.getD_some] at hcode hpdir hsa hac hal
    unfold file_create
    rw [hw]
    simp only [resVal, Option.getD_some]
    have hc0 : ¬w.code = 0 := by rw [hcode]; norm_num [E_NOT_FOUND]
    have hc1 : ¬(w.code ≠ -E_NOT_FOUND ∨ (some d : Option FLoc) = none) := by
      push_neg
      exact ⟨hcode, by simp⟩
    simp only [hpdir, if_neg hc0, if_neg hc1]
    cases hda : dir_alloc_file st1 d with
    | none => rw [hda] at hsa; cases hsa
    | some q2 =>
      obtain ⟨r2, fl, st2⟩ := q2
      rw [hda] at hac hal
      simp only [resVal, Option.getD_some] at hac hal
      simp only [hda]
      subst hac
      simp only [if_neg (show ¬((0 : Int) < 0) by norm_num), hal]
      simp only [resVal, Option.getD_some, setFile, getFile]
      refine ⟨?_, ?_, ?_, ?_, ?_, ?_, ?_, ?_, ?_, ?_, ?_, ?_, ?_, ?_, ?_⟩ <;>
        first
        | (intro b2 j2 hne; simp [hne])
        | (intros; simp)
        | simp

/-- Witness for C8 at `stWalk` and path "y": the walk misses at the last
component with parent root; the allocated slot is record (5, 1), whose
stale field values (size 7777, type 1, indirect 9) survive the creation —
only the name becomes "y". -/
theorem c8_create_writes_only_name_witness :
    (walk_path stWalk ['y']).isSome = true ∧
    (walkRes stWalk ['y']).1.code = -E_NOT_FOUND ∧
    (walkRes stWalk ['y']).1.pdir = some FLoc.root ∧
    (dir_alloc_file (walkRes stWalk ['y']).2 FLoc.root).isSome = true ∧
    (allocRes stWalk ['y'] FLoc.root).1 = 0 ∧
    (allocRes stWalk ['y'] FLoc.root).2.1 = some (FLoc.blk 5 1) ∧
    ((createRes stWalk ['y']).2.2.recs 5 1).fname = (walkRes stWalk ['y']).1.lastelem ∧
    ((createRes stWalk ['y']).2.2.recs 5 1).fsize =
      ((allocRes stWalk ['y'] FLoc.root).2.2.recs 5 1).fsize :=
  ⟨by decide, by decide, by decide, by decide, by decide, by decide,
   (c8_create_writes_only_name stWalk ['y'] FLoc.root 5 1 (by decide) (by decide)
     (by decide) (by decide) (by decide) (by decide)).2.2.2.1,
   (c8_create_writes_only_name stWalk ['y'] FLoc.root 5 1 (by decide) (by decide)
     (by decide) (by decide) (by decide) (by decide)).2.2.2.2.1⟩

/-! Claim C5: a specification of one `file_clear_block` step and of the
truncation loop. -/

theorem read_block_ok (st : FsState) (b : Nat) (hm : st.mapped b = true)
    (h1 : st.superLoaded = true → b < st.nblocks)
    (h2 : st.bitmapLoaded = true → st.bitmap b = false) :
    read_block st b = some (st, false) := by
  have c1 : ¬(st.superLoaded = true ∧ st.nblocks ≤ b) := by
    rintro ⟨hs, hge⟩
    have := h1 hs
    omega
  have c2 : ¬(st.bitmapLoaded = true ∧ block_is_free st b = true) := by
    rintro ⟨hb, hf⟩
    unfold block_is_free at hf
    split at hf
    · cases hf
    · rw [h2 hb] at hf
      cases hf
  unfold read_block
  rw [if_neg c1, if_neg c2, if_pos hm]

theorem file_clear_block_spec (st : FsState) (f : File) (a : Nat)
    (hlen : f.fdirect.length = NDIRECT)
    (hA : a < NINDIRECT)
    (hB : f.findirect = 0 → a < NDIRECT)
    (hmapped : f.findirect ≠ 0 → st.mapped f.findirect = true)
    (hsup : f.findirect ≠ 0 → st.superLoaded = true → f.findirect < st.nblocks)
    (hfree : f.findirect ≠ 0 → st.bitmapLoaded = true → st.bitmap f.findirect = false) :
    ∃ r f1 st1, file_clear_block st f a = some (r, f1, st1) ∧
      f1.fname = f.fname ∧ f1.fsize = f.fsize ∧ f1.ftype = f.ftype ∧
      f1.findirect = f.findirect ∧ f1.fdir = f.fdir ∧
      f1.fdirect.length = NDIRECT ∧
      (∀ i, i ≠ a → f1.fdirect.getD i 0 = f.fdirect.getD i 0) ∧
      f1.fdirect.getD a 0 = (if a < NDIRECT then 0 else f.fdirect.getD a 0) ∧
      (∀ bb ii, st1.mem bb ii =
        (if f.findirect ≠ 0 ∧ bb = f.findirect ∧ ii = a ∧ NDIRECT ≤ a then 0
         else st.mem bb ii)) ∧
      (∀ v2, st1.bitmap v2 =
        (if v2 = slotVal st f a ∧ slotVal st f a ≠ 0 then true else st.bitmap v2)) ∧
      st1.mapped = st.mapped ∧ st1.superLoaded = st.superLoaded ∧
      st1.bitmapLoaded = st.bitmapLoaded ∧ st1.nblocks = st.nblocks ∧
      st1.writes = st.writes ∧ st1.recs = st.recs ∧ st1.rootRec = st.rootRec := by
  by_cases hA1 : a < NDIRECT
  · -- direct slot
    have hwalk : file_block_walk st f a false = some (0, .direct a, f, st) := by
      unfold file_block_walk
      rw [if_pos hA1]
    have hslot : slotVal st f a = f.fdirect.getD a 0 := by
      unfold slotVal
      rw [if_pos hA1]
    by_cases hv : f.fdirect.getD a 0 = 0
    · refine ⟨0, f, st, ?_, rfl, rfl, rfl, rfl, rfl, hlen, fun i _ => rfl, ?_, ?_, ?_,
        rfl, rfl, rfl, rfl, rfl, rfl, rfl⟩
      · unfold file_clear_block
        rw [hwalk]
        simp only [readSlot]
        rw [if_neg (by norm_num), if_neg (by norm_num)]
        rw [if_neg (not_not_intro hv)]
      · rw [if_pos hA1, hv]
      · intro bb ii
        split
        · next hcond => exact absurd hcond.2.2.2 (by omega)
        · rfl
      · intro v2
        rw [hslot, hv]
        rw [if_neg (fun h => h.2 rfl)]
    · refine ⟨0, { f with fdirect := f.fdirect.set a 0 },
        { st with bitmap := fun n => if n = f.fdirect.getD a 0 then true else st.bitmap n },
        ?_, rfl, rfl, rfl, rfl, rfl, ?_, ?_, ?_, ?_, ?_, rfl, rfl, rfl, rfl, rfl, rfl, rfl⟩
      · unfold file_clear_block
        rw [hwalk]
        simp only [readSlot]
        rw [if_neg (by norm_num), if_neg (by norm_num)]
        rw [if_pos hv, free_block_of_ne _ _ hv]
        rfl
      · simp [hlen]
      · intro i hne
        simp [List.getD, List.getElem?_set_ne (Ne.symm hne)]
      · rw [if_pos hA1]
        simp [List.getD, List.getElem?_set_self, hlen, hA1]
      · intro bb ii
        split
        · next hcond => exact absurd hcond.2.2.2 (by omega)
        · rfl
      · intro v2
        dsimp only
        rw [hslot]
        by_cases hv2 : v2 = f.fdirect.getD a 0
        · rw [if_pos hv2, if_pos ⟨hv2, hv⟩]
        · rw [if_neg hv2, if_neg (fun h => hv2 h.1)]
  · -- indirect slot
    have hind : f.findirect ≠ 0 := fun h0 => hA1 (hB h0)
    have hrb : read_block st f.findirect = some (st, false) :=
      read_block_ok st f.findirect (hmapped hind) (hsup hind) (hfree hind)
    have hwalk : file_block_walk st f a false =
        some (0, .ind f.findirect a, f, st) := by
      unfold file_block_walk
      rw [if_neg hA1, if_pos hA, if_neg hind, hrb]
    have hslot : slotVal st f a = st.mem f.findirect a := by
      unfold slotVal
      rw [if_neg hA1, if_pos ⟨hA, hind⟩]
    by_cases hv : st.mem f.findirect a = 0
    · refine ⟨0, f, st, ?_, rfl, rfl, rfl, rfl, rfl, hlen, fun i _ => rfl, ?_, ?_, ?_,
        rfl, rfl, rfl, rfl, rfl, rfl, rfl⟩
      · unfold file_clear_block
        rw [hwalk]
        simp only [readSlot]
        rw [if_neg (by norm_num), if_neg (by norm_num)]
        rw [if_neg (not_not_intro hv)]
      · rw [if_neg hA1]
      · intro bb ii
        split
        · next hcond =>
          rw [← hcond.2.1, ← hcond.2.2.1] at hv
          omega
        · rfl
      · intro v2
        rw [hslot, hv]
        rw [if_neg (fun h => h.2 rfl)]
    · refine ⟨0, f,
        { st with
          bitmap := fun n => if n = st.mem f.findirect a then true else st.bitmap n
          mem := fun b2 i2 =>
            if b2 = f.findirect ∧ i2 = a then 0 else st.mem b2 i2 },
        ?_, rfl, rfl, rfl, rfl, rfl, hlen, fun i _ => rfl, ?_, ?_, ?_,
        rfl, rfl, rfl, rfl, rfl, rfl, rfl⟩
      · unfold file_clear_block
        rw [hwalk]
        simp only [readSlot]
        rw [if_neg (by norm_num), if_neg (by norm_num)]
        rw [if_pos hv, free_block_of_ne _ _ hv]
        rfl
      · rw [if_neg hA1]
      · intro bb ii
        dsimp only
        by_cases hc : bb = f.findirect ∧ ii = a
        · rw [if_pos hc, if_pos ⟨hind, hc.1, hc.2, by omega⟩]
        · rw [if_neg hc, if_neg (fun h => hc ⟨h.2.1, h.2.2.1⟩)]
      · intro v2
        dsimp only
        rw [hslot]
        by_cases hv2 : v2 = st.mem f.findirect a
        · rw [if_pos hv2, if_pos ⟨hv2, hv⟩]
        · rw [if_neg hv2, if_neg (fun h => hv2 h.1)]

theorem freedList_zero (st : FsState) (f : File) (a : Nat) :
    freedList st f a 0 = [] := rfl

theorem freedList_succ (st : FsState) (f : File) (a n : Nat) :
    freedList st f a (n + 1) =
      (if slotVal st f a ≠ 0 then [slotVal st f a] else []) ++
        freedList st f (a + 1) n := by
  by_cases hv : slotVal st f a ≠ 0 <;>
    simp [freedList, List.range'_succ, List.filterMap_cons, hv]

theorem freedList_congr (st1 : FsState) (f1 : File) (st : FsState) (f : File) :
    ∀ (n a : Nat), (∀ i, a ≤ i → i < a + n → slotVal st1 f1 i = slotVal st f i) →
      freedList st1 f1 a n = freedList st f a n := by
  intro n
  induction n with
  | zero => intro a _; rfl
  | succ n ih =>
    intro a h
    rw [freedList_succ, freedList_succ]
    rw [h a (le_refl a) (by omega)]
    rw [ih (a + 1) (fun i h1 h2 => h i (by omega) (by omega))]

theorem trunc_loop_spec :
    ∀ (n : Nat) (st : FsState) (f : File) (a : Nat),
      f.fdirect.length = NDIRECT →
      a + n ≤ NINDIRECT →
      (f.findirect = 0 → a + n ≤ NDIRECT) →
      (f.findirect ≠ 0 → st.mapped f.findirect = true) →
      (f.findirect ≠ 0 → st.superLoaded = true → f.findirect < st.nblocks) →
      (f.findirect ≠ 0 → st.bitmapLoaded = true → st.bitmap f.findirect = false) →
      (f.findirect ≠ 0 → ∀ i, slotVal st f i ≠ f.findirect) →
      ∃ f2 st2, trunc_loop st f a n = some (f2, st2) ∧
        f2.fname = f.fname ∧ f2.fsize = f.fsize ∧ f2.ftype = f.ftype ∧
        f2.findirect = f.findirect ∧ f2.fdir = f.fdir ∧
        f2.fdirect.length = NDIRECT ∧
        (∀ i, f2.fdirect.getD i 0 =
          (if a ≤ i ∧ i < a + n ∧ i < NDIRECT then 0 else f.fdirect.getD i 0)) ∧
        (∀ bb ii, st2.mem bb ii =
          (if f.findirect ≠ 0 ∧ bb = f.findirect ∧ a ≤ ii ∧ ii < a + n ∧ NDIRECT ≤ ii
           then 0 else st.mem bb ii)) ∧
        (∀ v2, st2.bitmap v2 = true ↔
          (st.bitmap v2 = true ∨ v2 ∈ freedList st f a n)) ∧
        st2.mapped = st.mapped ∧ st2.superLoaded = st.superLoaded ∧
        st2.bitmapLoaded = st.bitmapLoaded ∧ st2.nblocks = st.nblocks ∧
        st2.writes = st.writes ∧ st2.recs = st.recs ∧ st2.rootRec = st.rootRec := by
  intro n
  induction n with
  | zero =>
    intro st f a hlen _ _ _ _ _ _
    refine ⟨f, st, rfl, rfl, rfl, rfl, rfl, rfl, hlen, ?_, ?_, ?_,
      rfl, rfl, rfl, rfl, rfl, rfl, rfl⟩
    · intro i
      rw [if_neg (by omega)]
    · intro bb ii
      rw [if_neg (by omega)]
    · intro v2
      rw [freedList_zero]
      simp
  | succ n ih =>
    intro st f a hlen hran hdir hmapped hsup hfree hnodup
    obtain ⟨r, f1, st1, hclear, hcnm, hcsz, hcty, hcind, hcfd, hclen, hcdir,
        hcdira, hcmem, hcbit, hcmapped, hcsl, hcbl, hcnb, hcwr, hcrecs, hcroot⟩ :=
      file_clear_block_spec st f a hlen (by omega) (fun h0 => by have := hdir h0; omega)
        hmapped hsup hfree
    have hstab : ∀ i, i ≠ a → slotVal st1 f1 i = slotVal st f i := by
      intro i hne
      unfold slotVal
      rw [hcind]
      by_cases h1 : i < NDIRECT
      · rw [if_pos h1, if_pos h1, hcdir i hne]
      · rw [if_neg h1, if_neg h1]
        by_cases h2 : i < NINDIRECT ∧ f.findirect ≠ 0
        · rw [if_pos h2, if_pos h2, hcmem]
          rw [if_neg (fun hh => hne hh.2.2.1)]
        · rw [if_neg h2, if_neg h2]
    have hind1 : f1.findirect = f.findirect := hcind
    obtain ⟨f2, st2, hloop, h2nm, h2sz, h2ty, h2ind, h2fd, h2len, h2dir, h2mem,
        h2bit, h2mapped, h2sl, h2bl, h2nb, h2wr, h2recs, h2root⟩ :=
      ih st1 f1 (a + 1) hclen (by omega)
        (fun h0 => by have := hdir (hind1 ▸ h0); omega)
        (fun h0 => by
          rw [hcmapped, hind1]
          exact hmapped (hind1 ▸ h0))
        (fun h0 hs => by
          rw [hind1, hcnb]
          exact hsup (hind1 ▸ h0) (hcsl ▸ hs))
        (fun h0 hb => by
          rw [hind1, hcbit]
          rw [if_neg (fun hh : f.findirect = slotVal st f a ∧ slotVal st f a ≠ 0 =>
            absurd hh.1.symm (hnodup (hind1 ▸ h0) a))]
          exact hfree (hind1 ▸ h0) (hcbl ▸ hb))
        (fun h0 i => by
          have h0f : f.findirect ≠ 0 := hind1 ▸ h0
          rw [hind1]
          by_cases hia : i = a
          · subst hia
            unfold slotVal
            rw [hcind]
            by_cases h1 : i < NDIRECT
            · rw [if_pos h1, hcdira, if_pos h1]
              exact fun hc => h0f hc.symm
            · rw [if_neg h1]
              by_cases h2 : i < NINDIRECT ∧ f.findirect ≠ 0
              · rw [if_pos h2, hcmem, if_pos ⟨h2.2, rfl, rfl, by omega⟩]
                exact fun hc => h0f hc.symm
              · rw [if_neg h2]
                exact fun hc => h0f hc.symm
          · rw [hstab i hia]
            exact hnodup h0f i)
    have hfr : freedList st1 f1 (a + 1) n = freedList st f (a + 1) n :=
      freedList_congr st1 f1 st f n (a + 1) (fun i h1 _ => hstab i (by omega))
    refine ⟨f2, st2, ?_, ?_, ?_, ?_, ?_, ?_, h2len, ?_, ?_, ?_, ?_, ?_, ?_, ?_,
      ?_, ?_, ?_⟩
    · simp only [trunc_loop, hclear]
      exact hloop
    · rw [h2nm, hcnm]
    · rw [h2sz, hcsz]
    · rw [h2ty, hcty]
    · rw [h2ind, hcind]
    · rw [h2fd, hcfd]
    · intro i
      rw [h2dir i]
      by_cases hia : i = a
      · subst hia
        rw [if_neg (by omega)]
        rw [hcdira]
        by_cases h1 : i < NDIRECT
        · rw [if_pos h1, if_pos ⟨by omega, by omega, h1⟩]
        · rw [if_neg h1, if_neg (by omega)]
      · by_cases hin : a + 1 ≤ i ∧ i < a + 1 + n ∧ i < NDIRECT
        · rw [if_pos hin, if_pos ⟨by omega, by omega, hin.2.2⟩]
        · rw [if_neg hin, hcdir i hia, if_neg (by omega)]
    · intro bb ii
      rw [h2mem bb ii, hind1]
      by_cases hiia : ii = a
      · rw [if_neg (by omega), hcmem]
        by_cases hcond : f.findirect ≠ 0 ∧ bb = f.findirect ∧ ii = a ∧ NDIRECT ≤ a
        · rw [if_pos hcond,
            if_pos ⟨hcond.1, hcond.2.1, by omega, by omega, by omega⟩]
        · rw [if_neg hcond,
            if_neg (fun hh => hcond ⟨hh.1, hh.2.1, hiia, by omega⟩)]
      · by_cases hin : f.findirect ≠ 0 ∧ bb = f.findirect ∧ a + 1 ≤ ii ∧
            ii < a + 1 + n ∧ NDIRECT ≤ ii
        · rw [if_pos hin, if_pos ⟨hin.1, hin.2.1, by omega, by omega, by omega⟩]
        · rw [if_neg hin, hcmem, if_neg (fun hh => hiia hh.2.2.1),
            if_neg (fun hh => hin ⟨hh.1, hh.2.1, by omega, by omega, by omega⟩)]
    · intro v2
      rw [h2bit v2, hfr, hcbit v2, freedList_succ]
      simp only [List.mem_append]
      by_cases hvv : v2 = slotVal st f a ∧ slotVal st f a ≠ 0
      · rw [if_pos hvv]
        simp [hvv.1, hvv.2]
      · rw [if_neg hvv]
        by_cases hs0 : slotVal st f a ≠ 0
        · have hne : v2 ≠ slotVal st f a := fun h => hvv ⟨h, hs0⟩
          simp [hs0, hne]
        · simp [hs0]
    · rw [h2mapped, hcmapped]
    · rw [h2sl, hcsl]
    · rw [h2bl, hcbl]
    · rw [h2nb, hcnb]
    · rw [h2wr, hcwr]
    · rw [h2recs, hcrecs]
    · rw [h2root, hcroot]

/-- Claim C5 (confirmed): for `newsize ≤ f_size` on a consistent file
(direct array of NDIRECT slots, block count within NINDIRECT, an indirect
block present whenever the size needs one, resident and in use, and no
data slot aliasing the indirect block), `file_truncate` clears — frees in
the bitmap and zeroes — exactly the logical block slots in
`[⌈newsize/BY2BLK⌉, ⌈old_size/BY2BLK⌉)`, frees the indirect block and
zeroes the indirect pointer whenever one exists, sets `f_size` to newsize,
and changes nothing else (mapping, write trace, directory records). -/
theorem c5_file_truncate :
    ∀ (st : FsState) (f : File) (newsize : Nat),
      f.fdirect.length = NDIRECT →
      newsize ≤ f.fsize →
      (f.fsize + BY2BLK - 1) / BY2BLK ≤ NINDIRECT →
      (f.findirect = 0 → (f.fsize + BY2BLK - 1) / BY2BLK ≤ NDIRECT) →
      (f.findirect ≠ 0 → st.mapped f.findirect = true) →
      (f.findirect ≠ 0 → st.superLoaded = true → f.findirect < st.nblocks) →
      (f.findirect ≠ 0 → st.bitmapLoaded = true → st.bitmap f.findirect = false) →
      (f.findirect ≠ 0 → ∀ i, slotVal st f i ≠ f.findirect) →
      (file_truncate st f newsize).isSome = true ∧
      (resVal (file_truncate st f newsize)).1.fsize = newsize ∧
      (resVal (file_truncate st f newsize)).1.findirect = 0 ∧
      (∀ i, (resVal (file_truncate st f newsize)).1.fdirect.getD i 0 =
        (if (newsize + BY2BLK - 1) / BY2BLK ≤ i ∧
            i < (f.fsize + BY2BLK - 1) / BY2BLK ∧ i < NDIRECT
         then 0 else f.fdirect.getD i 0)) ∧
      (∀ bb ii, (resVal (file_truncate st f newsize)).2.mem bb ii =
        (if f.findirect ≠ 0 ∧ bb = f.findirect ∧
            (newsize + BY2BLK - 1) / BY2BLK ≤ ii ∧
            ii < (f.fsize + BY2BLK - 1) / BY2BLK ∧ NDIRECT ≤ ii
         then 0 else st.mem bb ii)) ∧
      (∀ v2, (resVal (file_truncate st f newsize)).2.bitmap v2 = true ↔
        (st.bitmap v2 = true ∨
         v2 ∈ freedList st f ((newsize + BY2BLK - 1) / BY2BLK)
           ((f.fsize + BY2BLK - 1) / BY2BLK - (newsize + BY2BLK - 1) / BY2BLK) ∨
         (f.findirect ≠ 0 ∧ v2 = f.findirect))) ∧
      (resVal (file_truncate st f newsize)).2.mapped = st.mapped ∧
      (resVal (file_truncate st f newsize)).2.writes = st.writes ∧
      (resVal (file_truncate st f newsize)).2.recs = st.recs ∧
      (resVal (file_truncate st f newsize)).2.rootRec = st.rootRec := by
  intro st f newsize hlen hle hmax hdir hmapped hsup hfree hnodup
  have hnc : (newsize + BY2BLK - 1) / BY2BLK ≤ (f.fsize + BY2BLK - 1) / BY2BLK :=
    Nat.div_le_div_right (by omega)
  have hceil : (if newsize = 0 then 0 else (newsize + BY2BLK - 1) / BY2BLK) =
      (newsize + BY2BLK - 1) / BY2BLK := by
    split
    · next h0 => subst h0; decide
    · rfl
  obtain ⟨f2, st2, hloop, h2nm, h2sz, h2ty, h2ind, h2fd, h2len, h2dir, h2mem,
      h2bit, h2mapped, h2sl, h2bl, h2nb, h2wr, h2recs, h2root⟩ :=
    trunc_loop_spec
      ((f.fsize + BY2BLK - 1) / BY2BLK - (newsize + BY2BLK - 1) / BY2BLK)
      st f ((newsize + BY2BLK - 1) / BY2BLK) hlen (by omega)
      (fun h0 => by have := hdir h0; omega) hmapped hsup hfree hnodup
  have hsum : (newsize + BY2BLK - 1) / BY2BLK +
      ((f.fsize + BY2BLK - 1) / BY2BLK - (newsize + BY2BLK - 1) / BY2BLK) =
      (f.fsize + BY2BLK - 1) / BY2BLK := by omega
  simp only [hsum] at h2dir h2mem
  by_cases hf0 : f.findirect = 0
  · have hne : ¬f2.findirect ≠ 0 := by rw [h2ind, hf0]; simp
    simp only [file_truncate, hceil, hloop, if_neg hne, resVal, Option.getD_some]
    refine ⟨by first | rfl | trivial, by first | rfl | trivial, ?_, h2dir, h2mem,
      ?_, h2mapped, h2wr, h2recs, h2root⟩
    · rw [h2ind, hf0]
    · intro v2
      constructor
      · intro h
        rcases (h2bit v2).mp h with h | h
        · exact Or.inl h
        · exact Or.inr (Or.inl h)
      · rintro (h | h | h)
        · exact (h2bit v2).mpr (Or.inl h)
        · exact (h2bit v2).mpr (Or.inr h)
        · exact absurd h.1 (by rw [hf0]; simp)
  · have hne : f2.findirect ≠ 0 := by rw [h2ind]; exact hf0
    simp only [file_truncate, hceil, hloop, h2ind, if_pos hf0,
      free_block_of_ne st2 f.findirect hf0, resVal, Option.getD_some]
    refine ⟨by first | rfl | trivial, by first | rfl | trivial,
      by first | rfl | trivial, h2dir, h2mem, ?_, h2mapped, h2wr, h2recs, h2root⟩
    intro v2
    by_cases hv2 : v2 = f.findirect
    · rw [if_pos hv2]
      exact ⟨fun _ => Or.inr (Or.inr ⟨hf0, hv2⟩), fun _ => rfl⟩
    · rw [if_neg hv2]
      constructor
      · intro h
        rcases (h2bit v2).mp h with h | h
        · exact Or.inl h
        · exact Or.inr (Or.inl h)
      · rintro (h | h | h)
        · exact (h2bit v2).mpr (Or.inl h)
        · exact (h2bit v2).mpr (Or.inr h)
        · exact absurd h.2 hv2

/-- Witness for C5: truncating the three-block file `fileTrunc` (backing
blocks 7, 8, 9, no indirect block) to one block in state `stAlloc` frees
exactly blocks 8 and 9, zeroes exactly direct slots 1 and 2, and sets the
size to BY2BLK. -/
theorem c5_file_truncate_witness :
    (file_truncate stAlloc fileTrunc BY2BLK).isSome = true ∧
    (resVal (file_truncate stAlloc fileTrunc BY2BLK)).1.fsize = BY2BLK ∧
    (resVal (file_truncate stAlloc fileTrunc BY2BLK)).1.findirect = 0 ∧
    (resVal (file_truncate stAlloc fileTrunc BY2BLK)).1.fdirect.getD 1 0 = 0 ∧
    (resVal (file_truncate stAlloc fileTrunc BY2BLK)).1.fdirect.getD 0 0 =
      fileTrunc.fdirect.getD 0 0 ∧
    ((resVal (file_truncate stAlloc fileTrunc BY2BLK)).2.bitmap 8 = true ↔
      (stAlloc.bitmap 8 = true ∨
       8 ∈ freedList stAlloc fileTrunc ((BY2BLK + BY2BLK - 1) / BY2BLK)
         ((fileTrunc.fsize + BY2BLK - 1) / BY2BLK - (BY2BLK + BY2BLK - 1) / BY2BLK) ∨
       (fileTrunc.findirect ≠ 0 ∧ 8 = fileTrunc.findirect))) := by
  have h := c5_file_truncate stAlloc fileTrunc BY2BLK (by decide) (by decide)
    (by decide) (fun _ => by decide) (fun hx => absurd rfl hx)
    (fun hx => absurd rfl hx) (fun hx => absurd rfl hx) (fun hx => absurd rfl hx)
  exact ⟨h.1, h.2.1, h.2.2.1, by rw [h.2.2.2.1 1]; decide,
    by rw [h.2.2.2.1 0]; decide, h.2.2.2.2.2.1 8⟩
